import Mathlib

/-!
Shallow embedding of the clippy lint `missing_docs_in_private_items`
(source: `src/clippy_lints/src/missing_doc.rs`).

The embedding models:
- the attribute surface that the lint consults (`is_value_str`, `name`,
  `check_name`, `meta_item_list`, `list_contains_name`);
- the lint state `MissingDoc` with its `doc_hidden_stack` and the
  `enter_lint_attrs` / `exit_lint_attrs` / `doc_hidden` operations;
- `check_missing_docs_attrs` and the per-kind dispatch functions
  `check_crate`, `check_item`, `check_trait_item`, `check_impl_item`,
  `check_struct_field`, `check_variant`;
- the late-lint-pass driver discipline: for each attribute-bearing node the
  driver calls `enter_lint_attrs`, then the per-kind check, then recurses
  into the children, then calls `exit_lint_attrs`.

External collaborators are modelled at their interface: the test-harness
flag `cx.sess().opts.test` is a boolean on the context; the macro-origin
predicate (`in_macro` in the source) is a boolean carried by the span; the
trait-implementation query (`impl_trait_ref`) is an `Option Nat` carried by
the associated-item container.
-/

set_option autoImplicit false

namespace MissingDocLint

/-- Shape of an attribute body: a bare word, a name-value-string form
(`doc = "..."`, which is what doc comments lower to), or a meta-item list
form (`doc(hidden)`). -/
inductive AttrForm where
  | word
  | valueStr (value : String)
  | metaList (items : List String)
deriving DecidableEq

/-- An attribute as the lint sees it: a name plus a body shape. -/
structure Attribute where
  name : String
  form : AttrForm
deriving DecidableEq

/-- Model of `ast::Attribute::is_value_str`: true exactly for the
name-value-string form. -/
def Attribute.is_value_str (a : Attribute) : Bool :=
  match a.form with
  | AttrForm.valueStr _ => true
  | _ => false

/-- Model of `ast::Attribute::meta_item_list`: the nested item names when
the attribute is a list form, `none` otherwise. -/
def Attribute.meta_item_list (a : Attribute) : Option (List String) :=
  match a.form with
  | AttrForm.metaList items => some items
  | _ => none

/-- Model of `ast::Attribute::check_name`. -/
def Attribute.check_name (a : Attribute) (name : String) : Bool :=
  a.name == name

/-- Model of `syntax::attr::list_contains_name`. -/
def list_contains_name (items : List String) (name : String) : Bool :=
  items.contains name

/-- A source span. The boolean `from_expansion` carries the answer of the
external macro-origin predicate (`in_macro` in the source) for this span;
the tag keeps distinct spans distinguishable. -/
structure Span where
  tag : Nat
  from_expansion : Bool
deriving DecidableEq

/-- Model of the external predicate `in_macro(span)` consulted by the lint. -/
def is_macro_expansion (sp : Span) : Bool :=
  sp.from_expansion

/-- One emitted lint diagnostic, as handed to `span_lint`: the span and the
rendered message. -/
structure Report where
  span : Span
  msg : String
deriving DecidableEq

/-- The slice of `LateContext` that the lint reads: `cx.sess().opts.test`,
the test-harness build flag. -/
structure Ctx where
  sess_opts_test : Bool
deriving DecidableEq

/-- Lint state: stack of whether `doc(hidden)` is set at each level which
has lint attributes (field `doc_hidden_stack` of `MissingDoc`). -/
structure MissingDoc where
  doc_hidden_stack : List Bool
deriving DecidableEq

/-- Model of `MissingDoc::new`: the stack starts as `vec![false]`. -/
def MissingDoc.new : MissingDoc :=
  ⟨[false]⟩

/-- Model of `MissingDoc::doc_hidden`: reads the top of the stack. The
source calls `.last().expect(..)`, a panic on an empty stack; the model
totalises that read with a default, and the traversal theorems below show
the stack is never empty when this is consulted. The stack grows at the
head here, so the Vec's `last` is the list's head. -/
def MissingDoc.doc_hidden (m : MissingDoc) : Bool :=
  m.doc_hidden_stack.headD false

/-- Model of the `has_doc` computation inside `check_missing_docs_attrs`:
`attrs.iter().any(|a| a.is_value_str() && a.name() == "doc")`. -/
def has_doc (attrs : List Attribute) : Bool :=
  attrs.any (fun a => a.is_value_str && a.name == "doc")

/-- Model of `MissingDoc::check_missing_docs_attrs`: skip when building a
test harness, when `doc(hidden)` is in force, or when the span comes from a
macro expansion; otherwise lint when the attribute list has no doc
comment. -/
def MissingDoc.check_missing_docs_attrs (m : MissingDoc) (cx : Ctx)
    (attrs : List Attribute) (sp : Span) (desc : String) : List Report :=
  if cx.sess_opts_test then
    []
  else if m.doc_hidden then
    []
  else if is_macro_expansion sp then
    []
  else if !(has_doc attrs) then
    [⟨sp, "missing documentation for " ++ desc⟩]
  else
    []

/-- Model of the closure inside `enter_lint_attrs`: an attribute counts as
marking `doc(hidden)` when it is named `doc` and its meta-item list
contains `hidden`. -/
def attrIsDocHidden (a : Attribute) : Bool :=
  a.check_name "doc"
    && match a.meta_item_list with
       | none => false
       | some l => list_contains_name l "hidden"

/-- Model of `enter_lint_attrs`: push the current state OR-ed with whether
the new attribute list marks `doc(hidden)`. -/
def MissingDoc.enter_lint_attrs (m : MissingDoc) (attrs : List Attribute) : MissingDoc :=
  ⟨(m.doc_hidden || attrs.any attrIsDocHidden) :: m.doc_hidden_stack⟩

/-- Model of `exit_lint_attrs`: `pop().expect(..)` — pop one entry,
panicking (modelled as `none`) exactly when the stack is already empty. -/
def MissingDoc.exit_lint_attrs (m : MissingDoc) : Option MissingDoc :=
  match m.doc_hidden_stack with
  | [] => none
  | _ :: rest => some ⟨rest⟩

/-- Item kinds distinguished by `check_item` (`hir::ItemKind`). -/
inductive ItemKind where
  | Const
  | Enum
  | Fn
  | Mod
  | Static
  | Struct
  | Trait
  | TraitAlias
  | Ty
  | Union
  | Existential
  | ExternCrate
  | ForeignMod
  | GlobalAsm
  | Impl
  | Use
deriving DecidableEq

/-- Trait-item kinds distinguished by `check_trait_item`
(`hir::TraitItemKind`; `Type` is rendered `Ty` here). -/
inductive TraitItemKind where
  | Const
  | Method
  | Ty
deriving DecidableEq

/-- Impl-item kinds distinguished by `check_impl_item`
(`hir::ImplItemKind`; `Type` is rendered `Ty` here). -/
inductive ImplItemKind where
  | Const
  | Method
  | Ty
  | Existential
deriving DecidableEq

/-- Model of `ty::AssociatedItem::container` together with the
`impl_trait_ref` query on an impl container: `implContainer ref` carries
`some id` exactly when the surrounding impl block implements a trait. -/
inductive AssocItemContainer where
  | traitContainer
  | implContainer (impl_trait_ref : Option Nat)
deriving DecidableEq

/-- Model of `check_item`: map the item kind to its description,
skipping `main` at the crate root (`def_key.parent == Some(CRATE_DEF_INDEX)`
is carried as the boolean `parentIsCrateRoot`) and the never-documented
kinds, then run `check_missing_docs_attrs`. -/
def check_item (cx : Ctx) (m : MissingDoc) (k : ItemKind) (ident : String)
    (parentIsCrateRoot : Bool) (attrs : List Attribute) (sp : Span) : List Report :=
  match k with
  | ItemKind.Const => m.check_missing_docs_attrs cx attrs sp "a constant"
  | ItemKind.Enum => m.check_missing_docs_attrs cx attrs sp "an enum"
  | ItemKind.Fn =>
    if ident == "main" && parentIsCrateRoot then
      []
    else
      m.check_missing_docs_attrs cx attrs sp "a function"
  | ItemKind.Mod => m.check_missing_docs_attrs cx attrs sp "a module"
  | ItemKind.Static => m.check_missing_docs_attrs cx attrs sp "a static"
  | ItemKind.Struct => m.check_missing_docs_attrs cx attrs sp "a struct"
  | ItemKind.Trait => m.check_missing_docs_attrs cx attrs sp "a trait"
  | ItemKind.TraitAlias => m.check_missing_docs_attrs cx attrs sp "a trait alias"
  | ItemKind.Ty => m.check_missing_docs_attrs cx attrs sp "a type alias"
  | ItemKind.Union => m.check_missing_docs_attrs cx attrs sp "a union"
  | ItemKind.Existential => m.check_missing_docs_attrs cx attrs sp "an existential type"
  | ItemKind.ExternCrate => []
  | ItemKind.ForeignMod => []
  | ItemKind.GlobalAsm => []
  | ItemKind.Impl => []
  | ItemKind.Use => []

/-- Model of `check_trait_item`. -/
def check_trait_item (cx : Ctx) (m : MissingDoc) (k : TraitItemKind)
    (attrs : List Attribute) (sp : Span) : List Report :=
  match k with
  | TraitItemKind.Const => m.check_missing_docs_attrs cx attrs sp "an associated constant"
  | TraitItemKind.Method => m.check_missing_docs_attrs cx attrs sp "a trait method"
  | TraitItemKind.Ty => m.check_missing_docs_attrs cx attrs sp "an associated type"

/-- Model of `check_impl_item`: a member in a trait container, or in an
impl container whose `impl_trait_ref` is non-empty, is never checked. -/
def check_impl_item (cx : Ctx) (m : MissingDoc) (k : ImplItemKind)
    (container : AssocItemContainer) (attrs : List Attribute) (sp : Span) : List Report :=
  match container with
  | AssocItemContainer.traitContainer => []
  | AssocItemContainer.implContainer ref =>
    if ref.isSome then
      []
    else
      match k with
      | ImplItemKind.Const => m.check_missing_docs_attrs cx attrs sp "an associated constant"
      | ImplItemKind.Method => m.check_missing_docs_attrs cx attrs sp "a method"
      | ImplItemKind.Ty => m.check_missing_docs_attrs cx attrs sp "an associated type"
      | ImplItemKind.Existential => m.check_missing_docs_attrs cx attrs sp "an existential type"

/-- Model of `check_struct_field`: only non-positional (named) fields are
checked. -/
def check_struct_field (cx : Ctx) (m : MissingDoc) (is_positional : Bool)
    (attrs : List Attribute) (sp : Span) : List Report :=
  if !is_positional then
    m.check_missing_docs_attrs cx attrs sp "a struct field"
  else
    []

/-- Model of `check_variant`. -/
def check_variant (cx : Ctx) (m : MissingDoc) (attrs : List Attribute)
    (sp : Span) : List Report :=
  m.check_missing_docs_attrs cx attrs sp "a variant"

/-- Model of `check_crate`: the crate root is checked with description
`crate`. -/
def check_crate (cx : Ctx) (m : MissingDoc) (attrs : List Attribute)
    (sp : Span) : List Report :=
  m.check_missing_docs_attrs cx attrs sp "crate"

/-- Per-node payload deciding which `check_*` callback the driver invokes,
together with the kind-specific data that callback consults. -/
inductive NKind where
  | item (k : ItemKind) (ident : String) (parentIsCrateRoot : Bool)
  | traitItem (k : TraitItemKind)
  | implItem (k : ImplItemKind) (container : AssocItemContainer)
  | structField (is_positional : Bool)
  | variant
deriving DecidableEq

mutual
/-- A declaration node below the crate root: its kind payload, its
attribute list, its span, and its children in source order. -/
inductive Node where
  | mk (kind : NKind) (attrs : List Attribute) (span : Span) (children : Forest)
/-- A list of sibling nodes in source order. -/
inductive Forest where
  | nil
  | cons (n : Node) (ns : Forest)
end

/-- Dispatch of the late-lint-pass callbacks `check_item`,
`check_trait_item`, `check_impl_item`, `check_struct_field`,
`check_variant` on a node's kind, given the lint state in force at that
node. -/
def nodeCheck (cx : Ctx) (m : MissingDoc) (kind : NKind)
    (attrs : List Attribute) (sp : Span) : List Report :=
  match kind with
  | NKind.item k ident parentIsCrateRoot => check_item cx m k ident parentIsCrateRoot attrs sp
  | NKind.traitItem k => check_trait_item cx m k attrs sp
  | NKind.implItem k container => check_impl_item cx m k container attrs sp
  | NKind.structField is_pos => check_struct_field cx m is_pos attrs sp
  | NKind.variant => check_variant cx m attrs sp

mutual
/-- Driver discipline of the late lint pass for one node (rustc's
`with_lint_attrs`): `enter_lint_attrs` on the node's attributes, the
per-kind check, recursion into the children, then `exit_lint_attrs`
(whose failure, a panic in the source, propagates as `none`). -/
def checkNode (cx : Ctx) (m : MissingDoc) : Node → Option (MissingDoc × List Report)
  | Node.mk kind attrs sp cs =>
    let m1 := m.enter_lint_attrs attrs
    let r1 := nodeCheck cx m1 kind attrs sp
    match checkForest cx m1 cs with
    | none => none
    | some (m2, r2) =>
      match m2.exit_lint_attrs with
      | none => none
      | some m3 => some (m3, r1 ++ r2)
/-- Driver discipline for a sibling list, threading the lint state left to
right and concatenating the reports in order. -/
def checkForest (cx : Ctx) (m : MissingDoc) : Forest → Option (MissingDoc × List Report)
  | Forest.nil => some (m, [])
  | Forest.cons n ns =>
    match checkNode cx m n with
    | none => none
    | some (m1, r1) =>
      match checkForest cx m1 ns with
      | none => none
      | some (m2, r2) => some (m2, r1 ++ r2)
end

/-- The crate root: its attribute list, its span, and its items. -/
structure Crate where
  attrs : List Attribute
  span : Span
  items : Forest

/-- One full late-lint-pass run over a crate starting from lint state `m`:
enter the crate attributes, run `check_crate`, walk the items, exit. The
resulting state and the reports in emission order are returned. -/
def runCheckState (cx : Ctx) (m : MissingDoc) (krate : Crate) :
    Option (MissingDoc × List Report) :=
  let m1 := m.enter_lint_attrs krate.attrs
  let r0 := check_crate cx m1 krate.attrs krate.span
  match checkForest cx m1 krate.items with
  | none => none
  | some (m2, r2) =>
    match m2.exit_lint_attrs with
    | none => none
    | some m3 => some (m3, r0 ++ r2)

/-- The whole check on a crate, starting from the state built by
`MissingDoc::new`: the ordered report sequence (or `none` on the
unreachable stack-underflow panic). -/
def check (cx : Ctx) (krate : Crate) : Option (List Report) :=
  (runCheckState cx MissingDoc.new krate).map Prod.snd

/-- Two back-to-back runs over the same crate on the same persistent lint
state, as the long-lived lint registration would do: the pair of report
sequences. -/
def checkTwice (cx : Ctx) (krate : Crate) : Option (List Report × List Report) :=
  match runCheckState cx MissingDoc.new krate with
  | none => none
  | some (m1, r1) =>
    match runCheckState cx m1 krate with
    | none => none
    | some (_, r2) => some (r1, r2)

/-- One suppression-tracker operation: entering a scope with an attribute
list, or exiting the current scope. -/
inductive Op where
  | enterOp (attrs : List Attribute)
  | exitOp
deriving DecidableEq

/-- Run a sequence of tracker operations on a lint state; an exit on an
empty stack (the source's panic) yields `none`. -/
def runOps (m : MissingDoc) : List Op → Option MissingDoc
  | [] => some m
  | Op.enterOp attrs :: rest => runOps (m.enter_lint_attrs attrs) rest
  | Op.exitOp :: rest =>
    match m.exit_lint_attrs with
    | none => none
    | some m2 => runOps m2 rest

/-- All states reached while running a sequence of tracker operations,
the initial and final states included; the trace stops at a failing exit. -/
def statesOps (m : MissingDoc) : List Op → List MissingDoc
  | [] => [m]
  | Op.enterOp attrs :: rest => m :: statesOps (m.enter_lint_attrs attrs) rest
  | Op.exitOp :: rest =>
    match m.exit_lint_attrs with
    | none => [m]
    | some m2 => m :: statesOps m2 rest

/-- Balanced operation sequences: every enter is matched by exactly one
exit at the same nesting depth, mirroring the paired
`enter_lint_attrs` / `exit_lint_attrs` calls of the traversal. -/
inductive Balanced : List Op → Prop where
  | nil : Balanced []
  | scope (attrs : List Attribute) (inner rest : List Op) :
      Balanced inner → Balanced rest →
      Balanced (Op.enterOp attrs :: (inner ++ Op.exitOp :: rest))

/-! Helper lemmas about the tracker operations. -/

/-- Exiting immediately after entering restores the previous state. -/
theorem exit_enter (m : MissingDoc) (attrs : List Attribute) :
    (m.enter_lint_attrs attrs).exit_lint_attrs = some m := rfl

/-- The state entered for an attribute list has the expected top entry. -/
theorem doc_hidden_enter (m : MissingDoc) (attrs : List Attribute) :
    (m.enter_lint_attrs attrs).doc_hidden = (m.doc_hidden || attrs.any attrIsDocHidden) := rfl

/-- While `doc(hidden)` is in force, `check_missing_docs_attrs` emits
nothing. -/
theorem check_missing_docs_attrs_of_hidden (cx : Ctx) (m : MissingDoc)
    (h : m.doc_hidden = true) (attrs : List Attribute) (sp : Span) (desc : String) :
    m.check_missing_docs_attrs cx attrs sp desc = [] := by
  simp [MissingDoc.check_missing_docs_attrs, h]

/-- In a test-harness build, `check_missing_docs_attrs` emits nothing. -/
theorem check_missing_docs_attrs_of_test (cx : Ctx) (h : cx.sess_opts_test = true)
    (m : MissingDoc) (attrs : List Attribute) (sp : Span) (desc : String) :
    m.check_missing_docs_attrs cx attrs sp desc = [] := by
  simp [MissingDoc.check_missing_docs_attrs, h]

/-- While `doc(hidden)` is in force, no per-kind callback emits anything. -/
theorem nodeCheck_of_hidden (cx : Ctx) (m : MissingDoc) (h : m.doc_hidden = true)
    (kind : NKind) (attrs : List Attribute) (sp : Span) :
    nodeCheck cx m kind attrs sp = [] := by
  have hc := check_missing_docs_attrs_of_hidden cx m h
  cases kind with
  | item k ident p => cases k <;> simp [nodeCheck, check_item, hc]
  | traitItem k => cases k <;> simp [nodeCheck, check_trait_item, hc]
  | implItem k c =>
    cases c with
    | traitContainer => simp [nodeCheck, check_impl_item]
    | implContainer ref => cases k <;> simp [nodeCheck, check_impl_item, hc]
  | structField p => cases p <;> simp [nodeCheck, check_struct_field, hc]
  | variant => simp [nodeCheck, check_variant, hc]

/-- In a test-harness build, no per-kind callback emits anything. -/
theorem nodeCheck_of_test (cx : Ctx) (h : cx.sess_opts_test = true)
    (m : MissingDoc) (kind : NKind) (attrs : List Attribute) (sp : Span) :
    nodeCheck cx m kind attrs sp = [] := by
  have hc := check_missing_docs_attrs_of_test cx h
  cases kind with
  | item k ident p => cases k <;> simp [nodeCheck, check_item, hc]
  | traitItem k => cases k <;> simp [nodeCheck, check_trait_item, hc]
  | implItem k c =>
    cases c with
    | traitContainer => simp [nodeCheck, check_impl_item]
    | implContainer ref => cases k <;> simp [nodeCheck, check_impl_item, hc]
  | structField p => cases p <;> simp [nodeCheck, check_struct_field, hc]
  | variant => simp [nodeCheck, check_variant, hc]

mutual
/-- Under a hidden state, a whole subtree runs without emitting anything
and restores the state. -/
theorem checkNode_of_hidden (cx : Ctx) : ∀ (n : Node) (m : MissingDoc), m.doc_hidden = true →
    checkNode cx m n = some (m, [])
  | Node.mk kind attrs sp cs, m, h => by
    have h1 : (m.enter_lint_attrs attrs).doc_hidden = true := by
      rw [doc_hidden_enter, h, Bool.true_or]
    have h2 := checkForest_of_hidden cx cs (m.enter_lint_attrs attrs) h1
    have h3 := nodeCheck_of_hidden cx (m.enter_lint_attrs attrs) h1 kind attrs sp
    simp [checkNode, h2, h3, exit_enter]
/-- Under a hidden state, a whole sibling list runs without emitting
anything and restores the state. -/
theorem checkForest_of_hidden (cx : Ctx) : ∀ (f : Forest) (m : MissingDoc), m.doc_hidden = true →
    checkForest cx m f = some (m, [])
  | Forest.nil, _, _ => rfl
  | Forest.cons n ns, m, h => by
    simp [checkForest, checkNode_of_hidden cx n m h, checkForest_of_hidden cx ns m h]
end

mutual
/-- In a test-harness build, a whole subtree runs without emitting anything
and restores the state. -/
theorem checkNode_of_test (cx : Ctx) (h : cx.sess_opts_test = true) :
    ∀ (n : Node) (m : MissingDoc), checkNode cx m n = some (m, [])
  | Node.mk kind attrs sp cs, m => by
    have h2 := checkForest_of_test cx h cs (m.enter_lint_attrs attrs)
    have h3 := nodeCheck_of_test cx h (m.enter_lint_attrs attrs) kind attrs sp
    simp [checkNode, h2, h3, exit_enter]
/-- In a test-harness build, a whole sibling list runs without emitting
anything and restores the state. -/
theorem checkForest_of_test (cx : Ctx) (h : cx.sess_opts_test = true) :
    ∀ (f : Forest) (m : MissingDoc), checkForest cx m f = some (m, [])
  | Forest.nil, _ => rfl
  | Forest.cons n ns, m => by
    simp [checkForest, checkNode_of_test cx h n m, checkForest_of_test cx h ns m]
end

mutual
/-- Every subtree traversal succeeds and restores the lint state it started
from: the enter/exit pairs are balanced. -/
theorem checkNode_restore (cx : Ctx) : ∀ (n : Node) (m : MissingDoc),
    ∃ r, checkNode cx m n = some (m, r)
  | Node.mk kind attrs sp cs, m => by
    obtain ⟨r2, h2⟩ := checkForest_restore cx cs (m.enter_lint_attrs attrs)
    refine ⟨nodeCheck cx (m.enter_lint_attrs attrs) kind attrs sp ++ r2, ?_⟩
    simp [checkNode, h2, exit_enter]
/-- Every sibling-list traversal succeeds and restores the lint state it
started from. -/
theorem checkForest_restore (cx : Ctx) : ∀ (f : Forest) (m : MissingDoc),
    ∃ r, checkForest cx m f = some (m, r)
  | Forest.nil, m => ⟨[], rfl⟩
  | Forest.cons n ns, m => by
    obtain ⟨r1, h1⟩ := checkNode_restore cx n m
    obtain ⟨r2, h2⟩ := checkForest_restore cx ns m
    exact ⟨r1 ++ r2, by simp [checkForest, h1, h2]⟩
end

/-- Entering an attribute list that marks `doc(hidden)` suppresses every
report in the subtree below it and restores the state on exit. -/
theorem checkNode_of_marked_hidden (cx : Ctx) (m : MissingDoc) (kind : NKind)
    (attrs : List Attribute) (sp : Span) (cs : Forest)
    (h : attrs.any attrIsDocHidden = true) :
    checkNode cx m (Node.mk kind attrs sp cs) = some (m, []) := by
  have h1 : (m.enter_lint_attrs attrs).doc_hidden = true := by
    rw [doc_hidden_enter, h, Bool.or_true]
  have h2 := checkForest_of_hidden cx cs (m.enter_lint_attrs attrs) h1
  have h3 := nodeCheck_of_hidden cx (m.enter_lint_attrs attrs) h1 kind attrs sp
  simp [checkNode, h2, h3, exit_enter]

/-- Running a concatenation of tracker operations runs the two parts in
sequence. -/
theorem runOps_append (l1 l2 : List Op) : ∀ m : MissingDoc,
    runOps m (l1 ++ l2)
      = match runOps m l1 with
        | none => none
        | some m2 => runOps m2 l2 := by
  induction l1 with
  | nil => intro m; rfl
  | cons op rest ih =>
    intro m
    cases op with
    | enterOp attrs =>
      simp only [List.cons_append, runOps]
      exact ih (m.enter_lint_attrs attrs)
    | exitOp =>
      cases hm : m.exit_lint_attrs with
      | none => simp [runOps, hm]
      | some m2 =>
        simp only [List.cons_append, runOps, hm]
        exact ih m2

/-- The trace of a tracker run always starts with the initial state. -/
theorem statesOps_head_cons (m : MissingDoc) (ops : List Op) :
    statesOps m ops = m :: (statesOps m ops).tail := by
  cases ops with
  | nil => rfl
  | cons op rest =>
    cases op with
    | enterOp attrs => rfl
    | exitOp =>
      cases hm : m.exit_lint_attrs with
      | none => simp [statesOps, hm]
      | some m2 => simp [statesOps, hm]

/-- Trace of a concatenation: after a successful first part, the trace is
the first trace followed by the continuation trace without its duplicated
head. -/
theorem statesOps_append (l1 : List Op) : ∀ (l2 : List Op) (m mid : MissingDoc),
    runOps m l1 = some mid →
    statesOps m (l1 ++ l2) = statesOps m l1 ++ (statesOps mid l2).tail := by
  induction l1 with
  | nil =>
    intro l2 m mid h
    have hm : m = mid := by simpa [runOps] using h
    subst hm
    simpa [statesOps] using statesOps_head_cons m l2
  | cons op rest ih =>
    intro l2 m mid h
    cases op with
    | enterOp attrs =>
      simp only [List.cons_append, statesOps, runOps, List.append_eq] at *
      rw [ih l2 _ mid h]
    | exitOp =>
      cases hm : m.exit_lint_attrs with
      | none => simp [runOps, hm] at h
      | some m2 =>
        simp only [List.cons_append, statesOps, runOps, hm, List.append_eq] at *
        rw [ih l2 m2 mid h]

/-- A balanced operation sequence never underflows the stack and restores
the state it started from. -/
theorem runOps_balanced {ops : List Op} (h : Balanced ops) :
    ∀ m : MissingDoc, runOps m ops = some m := by
  induction h with
  | nil => intro m; rfl
  | scope attrs inner rest hi hr ihi ihr =>
    intro m
    simp only [runOps, runOps_append, ihi, exit_enter, ihr]

/-- Pushing on top of a stack keeps its bottom entry. -/
theorem getLast_bottom_cons {s : List Bool} {b : Bool} (x : Bool)
    (h : s.getLast? = some b) : (x :: s).getLast? = some b := by
  cases s with
  | nil => simp at h
  | cons a t => rw [List.getLast?_cons_cons]; exact h

/-- Every state reached by a balanced run from a stack whose bottom entry
is `false` again has bottom entry `false` (hence a nonempty stack). -/
theorem statesOps_balanced {ops : List Op} (h : Balanced ops) :
    ∀ m : MissingDoc, m.doc_hidden_stack.getLast? = some false →
      ∀ m2 ∈ statesOps m ops, m2.doc_hidden_stack.getLast? = some false := by
  induction h with
  | nil =>
    intro m hm m2 hmem
    simp only [statesOps, List.mem_singleton] at hmem
    subst hmem
    exact hm
  | scope attrs inner rest hi hr ihi ihr =>
    intro m hm m2 hmem
    have h1 : (m.enter_lint_attrs attrs).doc_hidden_stack.getLast? = some false :=
      getLast_bottom_cons _ hm
    have hrun : runOps (m.enter_lint_attrs attrs) inner = some (m.enter_lint_attrs attrs) :=
      runOps_balanced hi _
    have hexit : statesOps (m.enter_lint_attrs attrs) (Op.exitOp :: rest)
        = (m.enter_lint_attrs attrs) :: statesOps m rest := by
      simp [statesOps, exit_enter]
    have hdecomp : statesOps m (Op.enterOp attrs :: (inner ++ Op.exitOp :: rest))
        = m :: (statesOps (m.enter_lint_attrs attrs) inner ++ statesOps m rest) := by
      rw [statesOps, statesOps_append inner (Op.exitOp :: rest) _ _ hrun, hexit]
      rfl
    rw [hdecomp] at hmem
    rcases List.mem_cons.mp hmem with h2 | h2
    · subst h2; exact hm
    rcases List.mem_append.mp h2 with h3 | h3
    · exact ihi _ h1 _ h3
    · exact ihr _ hm _ h3

/-! Concrete fixtures used by the witnesses and counterexamples. -/

/-- A span not coming from a macro expansion. -/
def spanPlain : Span := ⟨0, false⟩

/-- A second non-macro span. -/
def spanField : Span := ⟨1, false⟩

/-- A context outside a test-harness build. -/
def cxNormal : Ctx := ⟨false⟩

/-- A context inside a test-harness build. -/
def cxTestMode : Ctx := ⟨true⟩

/-- The attribute `doc(hidden)`. -/
def docHiddenAttr : Attribute := ⟨"doc", AttrForm.metaList ["hidden"]⟩

/-- A list-form doc attribute that does not mark `doc(hidden)`. -/
def docAliasAttr : Attribute := ⟨"doc", AttrForm.metaList ["alias"]⟩

/-- An undocumented named struct field with no attributes. -/
def undocField : Node := Node.mk (NKind.structField false) [] spanField Forest.nil

/-- A module marked `doc(hidden)` containing an undocumented named field. -/
def hiddenModule : Node :=
  Node.mk (NKind.item ItemKind.Mod "m" false) [docHiddenAttr] spanPlain
    (Forest.cons undocField Forest.nil)

/-- An undocumented empty crate. -/
def crateNoDocs : Crate := ⟨[], spanPlain, Forest.nil⟩

/-- An undocumented crate containing an undocumented named field. -/
def crateUndoc : Crate := ⟨[], spanPlain, Forest.cons undocField Forest.nil⟩

/-- A named struct field whose only attribute is `doc(hidden)`. -/
def docHiddenOnlyField : Node :=
  Node.mk (NKind.structField false) [docHiddenAttr] spanField Forest.nil

/-- A balanced two-operation tracker run. -/
def opsBalancedExample : List Op := [Op.enterOp [], Op.exitOp]

/-! Claims. -/

/-- Claim C1 (amended): for every applicable node that is not skipped
(test-harness mode off, suppression state not hidden, span not
macro-expanded), a report is emitted if and only if the node has no doc
comment, and the report carries the node's span and the message
`missing documentation for ` followed by the label; the label used for the
crate root is `crate`, not `the program`. -/
theorem claim_C1_report_iff_missing_doc (cx : Ctx) (m : MissingDoc)
    (htest : cx.sess_opts_test = false) (hhid : m.doc_hidden = false) :
    (∀ (attrs : List Attribute) (sp : Span) (desc : String),
        is_macro_expansion sp = false →
        m.check_missing_docs_attrs cx attrs sp desc
          = if has_doc attrs then [] else [⟨sp, "missing documentation for " ++ desc⟩])
    ∧ ∀ (attrs : List Attribute) (sp : Span),
        is_macro_expansion sp = false →
        check_crate cx m attrs sp
          = if has_doc attrs then [] else [⟨sp, "missing documentation for crate"⟩] := by
  constructor
  · intro attrs sp desc hmac
    cases hd : has_doc attrs <;>
      simp [MissingDoc.check_missing_docs_attrs, htest, hhid, hmac, hd]
  · intro attrs sp hmac
    cases hd : has_doc attrs <;>
      simp [check_crate, MissingDoc.check_missing_docs_attrs, htest, hhid, hmac, hd]

/-- Witness for claim C1: an attribute-less node in a normal build is
reported at its span with the message built from its label. -/
theorem claim_C1_report_iff_missing_doc_witness :
    MissingDoc.new.check_missing_docs_attrs cxNormal [] spanPlain "a module"
      = [⟨spanPlain, "missing documentation for a module"⟩] := by
  have h := (claim_C1_report_iff_missing_doc cxNormal MissingDoc.new rfl rfl).1
    [] spanPlain "a module" rfl
  simpa using h

/-- Claim C1 counterexample: on an undocumented crate root checked in a
normal build with a non-macro span, the emitted message is
`missing documentation for crate`, not `missing documentation for the
program` as the claimed policy-table label would require. -/
theorem claim_C1_counterexample :
    check cxNormal crateNoDocs = some [⟨spanPlain, "missing documentation for crate"⟩]
    ∧ "missing documentation for crate" ≠ "missing documentation for the program" :=
  ⟨rfl, by decide⟩

/-- Claim C2: marking a scope hidden-from-docs suppresses reports for the
scope and every descendant inside it, regardless of the descendants' own
attributes; and a node whose current suppression state is hidden never
produces a report. -/
theorem claim_C2_hidden_scope_propagation (cx : Ctx) (m : MissingDoc) (kind : NKind)
    (attrs : List Attribute) (sp : Span) (cs : Forest)
    (h : attrs.any attrIsDocHidden = true) :
    checkNode cx m (Node.mk kind attrs sp cs) = some (m, [])
    ∧ ∀ (m2 : MissingDoc) (kind2 : NKind) (attrs2 : List Attribute) (sp2 : Span),
        m2.doc_hidden = true → nodeCheck cx m2 kind2 attrs2 sp2 = [] :=
  ⟨checkNode_of_marked_hidden cx m kind attrs sp cs h,
   fun m2 kind2 attrs2 sp2 h2 => nodeCheck_of_hidden cx m2 h2 kind2 attrs2 sp2⟩

/-- Witness for claim C2: a `doc(hidden)` module containing an undocumented
named field produces no report at all. -/
theorem claim_C2_hidden_scope_propagation_witness :
    checkNode cxNormal MissingDoc.new hiddenModule = some (MissingDoc.new, []) :=
  (claim_C2_hidden_scope_propagation cxNormal MissingDoc.new
      (NKind.item ItemKind.Mod "m" false) [docHiddenAttr] spanPlain
      (Forest.cons undocField Forest.nil) (by decide)).1

/-- Claim C3: a function named `main` whose semantic parent is the crate
root is never reported; a function named `main` inside a nested module that
is undocumented, not hidden, not macro-expanded, with test-harness mode
off, is reported with label `a function`. -/
theorem claim_C3_entry_point_exception (cx : Ctx) (m : MissingDoc)
    (attrs : List Attribute) (sp : Span) :
    check_item cx m ItemKind.Fn "main" true attrs sp = []
    ∧ (cx.sess_opts_test = false → m.doc_hidden = false →
        is_macro_expansion sp = false → has_doc attrs = false →
        check_item cx m ItemKind.Fn "main" false attrs sp
          = [⟨sp, "missing documentation for a function"⟩]) := by
  constructor
  · simp [check_item]
  · intro htest hhid hmac hdoc
    simp [check_item, MissingDoc.check_missing_docs_attrs, htest, hhid, hmac, hdoc]

/-- Witness for claim C3: an undocumented root-level `main` is skipped, and
an undocumented `main` in a nested module is reported as `a function`. -/
theorem claim_C3_entry_point_exception_witness :
    check_item cxNormal MissingDoc.new ItemKind.Fn "main" true [] spanPlain = []
    ∧ check_item cxNormal MissingDoc.new ItemKind.Fn "main" false [] spanPlain
        = [⟨spanPlain, "missing documentation for a function"⟩] :=
  ⟨(claim_C3_entry_point_exception cxNormal MissingDoc.new [] spanPlain).1,
   (claim_C3_entry_point_exception cxNormal MissingDoc.new [] spanPlain).2 rfl rfl rfl rfl⟩

/-- Claim C4: an implementation member whose surrounding impl block
implements a trait (non-empty `impl_trait_ref`) is never reported, whatever
its kind, attributes, span, and the current lint state. -/
theorem claim_C4_trait_impl_exception (cx : Ctx) (m : MissingDoc) (k : ImplItemKind)
    (tid : Nat) (attrs : List Attribute) (sp : Span) :
    check_impl_item cx m k (AssocItemContainer.implContainer (some tid)) attrs sp = [] := by
  simp [check_impl_item]

/-- Claim C5: a positional struct field is never reported; a named struct
field without a doc comment, not hidden, not macro-expanded, with
test-harness mode off, yields exactly one report with label
`a struct field`. -/
theorem claim_C5_struct_field_policy (cx : Ctx) (m : MissingDoc)
    (attrs : List Attribute) (sp : Span) :
    check_struct_field cx m true attrs sp = []
    ∧ (cx.sess_opts_test = false → m.doc_hidden = false →
        is_macro_expansion sp = false → has_doc attrs = false →
        check_struct_field cx m false attrs sp
          = [⟨sp, "missing documentation for a struct field"⟩]) := by
  constructor
  · rfl
  · intro htest hhid hmac hdoc
    simp [check_struct_field, MissingDoc.check_missing_docs_attrs, htest, hhid, hmac, hdoc]

/-- Witness for claim C5: an undocumented positional field is skipped and an
undocumented named field is reported. -/
theorem claim_C5_struct_field_policy_witness :
    check_struct_field cxNormal MissingDoc.new true [] spanField = []
    ∧ check_struct_field cxNormal MissingDoc.new false [] spanField
        = [⟨spanField, "missing documentation for a struct field"⟩] :=
  ⟨(claim_C5_struct_field_policy cxNormal MissingDoc.new [] spanField).1,
   (claim_C5_struct_field_policy cxNormal MissingDoc.new [] spanField).2 rfl rfl rfl rfl⟩

/-- Claim C6: when the test-harness flag is set, the check is a no-op at
every node (`check_missing_docs_attrs` emits nothing anywhere) and the
report sequence of a full run over any crate is empty. -/
theorem claim_C6_test_harness_no_op (cx : Ctx) (krate : Crate)
    (h : cx.sess_opts_test = true) :
    check cx krate = some []
    ∧ ∀ (m : MissingDoc) (attrs : List Attribute) (sp : Span) (desc : String),
        m.check_missing_docs_attrs cx attrs sp desc = [] := by
  constructor
  · have hf := checkForest_of_test cx h krate.items (MissingDoc.new.enter_lint_attrs krate.attrs)
    simp [check, runCheckState, hf, exit_enter, check_crate,
      check_missing_docs_attrs_of_test cx h]
  · exact fun m attrs sp desc => check_missing_docs_attrs_of_test cx h m attrs sp desc

/-- Witness for claim C6: a crate with an undocumented root and an
undocumented field yields the empty report sequence in a test-harness
build. -/
theorem claim_C6_test_harness_no_op_witness :
    check cxTestMode crateUndoc = some [] :=
  (claim_C6_test_harness_no_op cxTestMode crateUndoc rfl).1

/-- Claim C7: `enter_lint_attrs` pushes exactly one entry, equal to the
current top OR-ed with whether the attribute list marks `doc(hidden)`
(`attrIsDocHidden`), and `doc_hidden` reads the top entry of the stack. -/
theorem claim_C7_enter_push_current (m : MissingDoc) (attrs : List Attribute)
    (b : Bool) (rest : List Bool) (h : m.doc_hidden_stack = b :: rest) :
    (m.enter_lint_attrs attrs).doc_hidden_stack
      = (b || attrs.any attrIsDocHidden) :: m.doc_hidden_stack
    ∧ m.doc_hidden = b := by
  constructor
  · simp [MissingDoc.enter_lint_attrs, MissingDoc.doc_hidden, h]
  · simp [MissingDoc.doc_hidden, h]

/-- Witness for claim C7: entering `doc(hidden)` attributes on the initial
state pushes `true` on top of the untouched stack, and the top read on the
initial state is `false`. -/
theorem claim_C7_enter_push_current_witness :
    (MissingDoc.new.enter_lint_attrs [docHiddenAttr]).doc_hidden_stack = [true, false]
    ∧ MissingDoc.new.doc_hidden = false := by
  obtain ⟨h1, h2⟩ := claim_C7_enter_push_current MissingDoc.new [docHiddenAttr] false [] rfl
  exact ⟨h1.trans (by decide), h2⟩

/-- Claim C8 (amended): `exit_lint_attrs` pops exactly one entry and fails
(a panic, never a reported diagnostic) exactly when the stack is already
empty when it is called — popping the last entry succeeds; under any
balanced enter/exit sequence starting from the initial stack `[false]`, the
run never fails, every reached stack is nonempty, and its bottom entry is
always `false`. -/
theorem claim_C8_exit_pop_and_balance (ops : List Op) (h : Balanced ops) :
    (∀ (m : MissingDoc) (b : Bool) (rest : List Bool),
        m.doc_hidden_stack = b :: rest → m.exit_lint_attrs = some ⟨rest⟩)
    ∧ (∀ m : MissingDoc, m.doc_hidden_stack = [] → m.exit_lint_attrs = none)
    ∧ runOps MissingDoc.new ops = some MissingDoc.new
    ∧ ∀ m2 ∈ statesOps MissingDoc.new ops,
        m2.doc_hidden_stack ≠ [] ∧ m2.doc_hidden_stack.getLast? = some false := by
  refine ⟨?_, ?_, runOps_balanced h MissingDoc.new, ?_⟩
  · intro m b rest hm
    simp [MissingDoc.exit_lint_attrs, hm]
  · intro m hm
    simp [MissingDoc.exit_lint_attrs, hm]
  · intro m2 hmem
    have hl := statesOps_balanced h MissingDoc.new (by decide) m2 hmem
    refine ⟨?_, hl⟩
    intro hnil
    rw [hnil] at hl
    simp at hl

/-- Witness for claim C8: a concrete balanced enter/exit pair runs without
failure and restores the initial state. -/
theorem claim_C8_exit_pop_and_balance_witness :
    Balanced opsBalancedExample
    ∧ runOps MissingDoc.new opsBalancedExample = some MissingDoc.new := by
  have hb : Balanced opsBalancedExample :=
    Balanced.scope [] [] [] Balanced.nil Balanced.nil
  exact ⟨hb, (claim_C8_exit_pop_and_balance opsBalancedExample hb).2.2.1⟩

/-- Claim C8 counterexample: with the singleton initial stack — where a pop
leaves the stack empty — `exit_lint_attrs` succeeds instead of failing: the
source panics only when the stack is already empty before the pop. -/
theorem claim_C8_counterexample :
    MissingDoc.new.exit_lint_attrs = some ⟨[]⟩
    ∧ MissingDoc.new.exit_lint_attrs ≠ none :=
  ⟨rfl, by decide⟩

/-- Claim C9: the check is idempotent and restartable: two back-to-back
runs over the same crate both return exactly the report sequence of a
single fresh run, and the lint state after a run from the fresh initial
state is the fresh initial state again — no leakage through the
suppression stack. -/
theorem claim_C9_idempotent_restartable (cx : Ctx) (krate : Crate) :
    checkTwice cx krate = (check cx krate).map (fun r => (r, r))
    ∧ (runCheckState cx MissingDoc.new krate).map Prod.fst = some MissingDoc.new := by
  obtain ⟨rs, hrs⟩ :=
    checkForest_restore cx krate.items (MissingDoc.new.enter_lint_attrs krate.attrs)
  constructor
  · simp [checkTwice, check, runCheckState, hrs, exit_enter]
  · simp [runCheckState, hrs, exit_enter]

/-- Claim C10 (amended): a node counts as documented only when some
attribute is a value-string attribute named `doc`; when every doc-named
attribute is of non-value-string form, `has_doc` is false. A report then
remains reachable only when no doc-named list contains `hidden`: an
otherwise unskipped named struct field with such attributes is reported,
while a node whose attributes mark `doc(hidden)` is suppressed together
with its whole subtree and never reported. -/
theorem claim_C10_doc_list_form (attrs : List Attribute)
    (hdoc : ∀ a ∈ attrs, a.name = "doc" → a.is_value_str = false) :
    has_doc attrs = false
    ∧ (∀ (cx : Ctx) (m : MissingDoc) (kind : NKind) (sp : Span) (cs : Forest),
        attrs.any attrIsDocHidden = true →
        checkNode cx m (Node.mk kind attrs sp cs) = some (m, []))
    ∧ ∀ (cx : Ctx) (m : MissingDoc) (sp : Span),
        attrs.any attrIsDocHidden = false →
        cx.sess_opts_test = false → m.doc_hidden = false → is_macro_expansion sp = false →
        check_struct_field cx m false attrs sp
          = [⟨sp, "missing documentation for a struct field"⟩] := by
  have hnd : has_doc attrs = false := by
    rw [has_doc, List.any_eq_false]
    intro a ha
    simp only [Bool.and_eq_true, beq_iff_eq, not_and]
    intro hval hn
    rw [hdoc a ha hn] at hval
    exact Bool.false_ne_true hval
  refine ⟨hnd, ?_, ?_⟩
  · exact fun cx m kind sp cs hh => checkNode_of_marked_hidden cx m kind attrs sp cs hh
  · intro cx m sp hh htest hhid hmac
    simp [check_struct_field, MissingDoc.check_missing_docs_attrs, htest, hhid, hmac, hnd]

/-- Witness for claim C10: a field whose only attribute is the list form
`doc(alias)` counts as undocumented and is reported. -/
theorem claim_C10_doc_list_form_witness :
    has_doc [docAliasAttr] = false
    ∧ check_struct_field cxNormal MissingDoc.new false [docAliasAttr] spanField
        = [⟨spanField, "missing documentation for a struct field"⟩] := by
  have hdoc : ∀ a ∈ [docAliasAttr], a.name = "doc" → a.is_value_str = false := by
    intro a ha hn
    rw [List.mem_singleton] at ha
    subst ha
    rfl
  exact ⟨(claim_C10_doc_list_form [docAliasAttr] hdoc).1,
    (claim_C10_doc_list_form [docAliasAttr] hdoc).2.2 cxNormal MissingDoc.new spanField
      (by decide) rfl rfl rfl⟩

/-- Claim C10 counterexample: a named struct field whose only attribute is
`doc(hidden)` counts as undocumented (`has_doc` is false), yet in the most
favourable circumstances — lint enabled, fresh non-hidden state, non-macro
span — its traversal emits no report: entering the node's own attributes
hides it, so no report is emitted for that node. -/
theorem claim_C10_counterexample :
    has_doc [docHiddenAttr] = false
    ∧ checkNode cxNormal MissingDoc.new docHiddenOnlyField = some (MissingDoc.new, []) :=
  ⟨rfl, rfl⟩

end MissingDocLint
